import Mathlib

/-!
Shallow embedding of the streaming pipeline in `python-generators-0x00`
(`seed.py`, `0-stream_users.py`, `1-batch_processing.py`, `2-lazy_paginate.py`,
`stream_ages.py`).

Modelling conventions:
* The backing MySQL store is a `Option (List Row)`: `some rows` is a reachable
  `ALX_prodev` database whose `user_data` table iterates as `rows` (in cursor
  order); `none` is an unreachable store / missing database.
* A connection's only use in these modules is the `SELECT * FROM user_data`
  query, so a successfully opened connection is identified with the row list it
  serves. `connect_to_prodev` catches the driver error, prints a diagnostic and
  returns `None`; we model its result as `Option (List Row)`.
* Python exceptions that escape a function are modelled with `Except PyError`.
* Generators are finite here (the table is finite), so a fully-consumed lazy
  sequence is modelled as the `List` of its yields; where the claim is about
  exit paths of a partially-consumed generator we model the observable event
  trace explicitly (`stream_users_run`).
-/

/-- One record of `user_data`, as the dictionary cursor yields it
(`user_id`, `name`, `email`, `age`). -/
structure Row where
  user_id : String
  name : String
  email : String
  age : Int
deriving DecidableEq, Repr

/-- Python exceptions that can escape the embedded functions. -/
inductive PyError where
  | connectionError
  | attributeError
deriving DecidableEq, Repr

/-- `mysql.connector.connect(..., database=PRODEV_DB)`: raises a driver error
when the store is unreachable or the database does not exist, otherwise yields
a connection (identified with the table it serves). -/
def mysql_connect (store : Option (List Row)) : Except PyError (List Row) :=
  match store with
  | none => .error .connectionError
  | some rows => .ok rows

/-- `seed.connect_to_prodev` (seed.py:50-62): wraps `mysql_connect` in
`try/except`, printing a diagnostic and returning `None` on error. -/
def connect_to_prodev (store : Option (List Row)) : Option (List Row) :=
  match mysql_connect store with
  | .error _ => none
  | .ok rows => some rows

/-- `stream_users` (0-stream_users.py:11-24) as the list of rows it yields:
if the connection failed it returns at once (empty sequence), otherwise it
yields every row of the cursor in order. -/
def stream_users (store : Option (List Row)) : List Row :=
  match connect_to_prodev store with
  | none => []
  | some rows => rows

/-- Observable events of one run of the `stream_users` generator. -/
inductive PipeEvent where
  | yielded (r : Row)
  | cursorClosed
  | connClosed
deriving DecidableEq, Repr

/-- The event trace of `stream_users` (0-stream_users.py:11-24) when the
consumer performs `pulls` pulls on the generator before abandoning it.

Python generator semantics of the source body: each pull resumes the loop
`for row in cursor: yield row`; after the `(n+1)`-th pull on an `n`-row cursor
the loop ends and lines 23-24 run (`cursor.close(); conn.close()`) before
`StopIteration`. If the consumer stops pulling while the generator is still
suspended at a `yield` (i.e. `pulls ≤ n` with the cursor not yet exhausted),
closing the generator raises `GeneratorExit` at that `yield`; the body has no
`try/finally`, so the frame unwinds and lines 23-24 never execute. -/
def stream_users_run (store : Option (List Row)) (pulls : Nat) : List PipeEvent :=
  match connect_to_prodev store with
  | none => []
  | some rows =>
    if pulls ≤ rows.length then
      (rows.take pulls).map .yielded
    else
      rows.map .yielded ++ [.cursorClosed, .connClosed]

/-- The accumulation loop of `stream_users_in_batches`
(1-batch_processing.py:23-31): append each row to `batch`; when
`len(batch) == batch_size` yield it and restart from `[]`; after the loop,
yield a non-empty leftover `batch`. `batch_size` is a Python int, so it is
modelled as `Int` (the equality test is simply never true when it is ≤ 0). -/
def batchLoop (batch_size : Int) (batch : List Row) : List Row → List (List Row)
  | [] => if batch.isEmpty then [] else [batch]
  | r :: rs =>
    let batch' := batch ++ [r]
    if (batch'.length : Int) = batch_size then
      batch' :: batchLoop batch_size [] rs
    else
      batchLoop batch_size batch' rs

/-- `stream_users_in_batches` (1-batch_processing.py:11-34) as the list of
batches it yields: empty if the connection failed, otherwise the batching loop
over the cursor's rows. -/
def stream_users_in_batches (batch_size : Int) (store : Option (List Row)) :
    List (List Row) :=
  match connect_to_prodev store with
  | none => []
  | some rows => batchLoop batch_size [] rows

/-- The row sequence emitted (printed) by `batch_processing`
(1-batch_processing.py:37-45): for each batch, for each user in the batch,
emit the user when `user["age"] > 25`. -/
def batch_processing (batch_size : Int) (store : Option (List Row)) : List Row :=
  ((stream_users_in_batches batch_size store).map
    (fun batch => batch.filter (fun u => 25 < u.age))).flatten

/-- `filter_rows`: `batch_processing` with the hard-coded `age > 25` test
generalised to a caller-supplied predicate (the spec's BatchFilter signature);
the emission structure — per batch, per user, keep matching rows — is exactly
that of `batch_processing`. -/
def filter_rows (pred : Row → Bool) (batch_size : Int)
    (store : Option (List Row)) : List Row :=
  ((stream_users_in_batches batch_size store).map
    (fun batch => batch.filter pred)).flatten

-- Sample rows used in closed witness/counterexample statements.

/-- A sample row. -/
def rowA : Row := ⟨"u-1", "Alice", "alice@x", 30⟩

/-- A sample row. -/
def rowB : Row := ⟨"u-2", "Bob", "bob@x", 22⟩

/-- A sample row. -/
def rowC : Row := ⟨"u-3", "Cara", "cara@x", 34⟩

/-- The bounded query `SELECT * FROM user_data LIMIT page_size OFFSET offset`
issued by `paginate_users` (2-lazy_paginate.py:15-16): on a static table it
returns the `page_size`-prefix of the rows after the first `offset`. -/
def fetch_rows_query (page_size offset : Nat) (rows : List Row) : List Row :=
  (rows.drop offset).take page_size

/-- `paginate_users` (2-lazy_paginate.py:11-18): opens a fresh connection per
call and runs one bounded query. It has no `None` check, so when
`connect_to_prodev` returns `None` the attribute access `connection.cursor`
raises `AttributeError`. -/
def paginate_users (page_size offset : Nat) (store : Option (List Row)) :
    Except PyError (List Row) :=
  match connect_to_prodev store with
  | none => .error .attributeError
  | some rows => .ok (fetch_rows_query page_size offset rows)

/-- The `while True` loop of `lazy_pagination` (2-lazy_paginate.py:21-29)
over a reachable static store (each call of `paginate_users` reconnects and sees
the same `rows`): fetch the page at `offset`; if it is empty, stop (count that
final fetch call); otherwise yield it and advance `offset` by `page_size`.
Returns the list of yielded pages together with the number of calls made to
`paginate_users`. -/
def lazyPaginationAux (page_size : Nat) (rows : List Row) (offset : Nat) :
    List (List Row) × Nat :=
  if h : fetch_rows_query page_size offset rows = [] then
    ([], 1)
  else
    let rest := lazyPaginationAux page_size rows (offset + page_size)
    (fetch_rows_query page_size offset rows :: rest.1, rest.2 + 1)
termination_by rows.length - offset
decreasing_by
  simp only [fetch_rows_query, List.take_eq_nil_iff, List.drop_eq_nil_iff,
    not_or] at h
  omega

/-- The pages yielded by `lazy_pagination(page_size)` (2-lazy_paginate.py:21-29)
over a reachable static store with rows `rows`. -/
def lazy_pagination (page_size : Nat) (rows : List Row) : List (List Row) :=
  (lazyPaginationAux page_size rows 0).1

/-- The number of calls `lazy_pagination(page_size)` makes to `paginate_users`
before terminating, over a reachable static store with rows `rows`. -/
def lazy_pagination_fetch_calls (page_size : Nat) (rows : List Row) : Nat :=
  (lazyPaginationAux page_size rows 0).2

/-- `stream_user_ages` (stream_ages.py:12-25): yields `row["age"]` for each
row of the cursor; empty if the connection failed. -/
def stream_user_ages (store : Option (List Row)) : List Int :=
  match connect_to_prodev store with
  | none => []
  | some rows => rows.map (·.age)

/-- `calculate_average_age` (stream_ages.py:28-41): folds the age stream into
`total` and `count` in one pass; reports the "no data" sentinel
(`print("No users in database.")`, modelled as `none`) when `count == 0`,
otherwise reports the average `total / count` (modelled as `some` of the
exact rational the float computes for these small integers). -/
def calculate_average_age (store : Option (List Row)) : Option Rat :=
  let tc := (stream_user_ages store).foldl
    (fun (tc : Int × Nat) age => (tc.1 + age, tc.2 + 1)) (0, 0)
  if tc.2 = 0 then none
  else some ((tc.1 : Rat) / (tc.2 : Rat))

/-! ### `seed.insert_data` (seed.py:86-135)

The CSV load. Modelling notes:
* `uuid.uuid4()` results are modelled as `UserId.fresh k` for a counter `k`
  threaded through the loop: distinct draws are distinct and never equal a
  CSV-supplied (`UserId.given`) id, which is exactly the collision-freeness
  uuid4 provides.
* `row.get("user_id") or str(uuid.uuid4())` treats both a missing key and an
  empty string as absent (Python falsiness).
* `int(float(row.get("age","").strip()))` is a pure function of the cell text;
  its outcome is carried in the `CsvRow` as `age : Option Int` (`none` when the
  cell is missing, empty or unparseable — the `ValueError` path). `name` and
  `email` carry the already-`strip()`ed text. Both parse and strip are
  deterministic, so re-reading the same file yields the same `CsvRow` list.
* The `SELECT 1 ... WHERE user_id = %s OR email = %s` existence check runs on
  the same connection as the inserts, so it sees the rows inserted earlier in
  the same load; the table state therefore grows within the fold. -/

/-- A `user_data.user_id` value: either supplied by the CSV or a fresh uuid4
draw (the `k`-th draw of the process). -/
inductive UserId where
  | given (s : String)
  | fresh (k : Nat)
deriving DecidableEq, Repr

/-- A row of the `user_data` table as stored by `insert_data`. -/
structure TableRow where
  user_id : UserId
  name : String
  email : String
  age : Int
deriving DecidableEq, Repr

/-- One CSV record as `csv.DictReader` + the parsing in the loop body produce
it (see the modelling notes above). -/
structure CsvRow where
  user_id : Option String
  name : String
  email : String
  age : Option Int
deriving DecidableEq, Repr

/-- `user_id = row.get("user_id") or str(uuid.uuid4())` (seed.py:102):
the CSV id when present and non-empty, else a fresh uuid; returns the id and
the updated uuid-draw counter. -/
def resolveUserId (r : CsvRow) (ctr : Nat) : UserId × Nat :=
  match r.user_id with
  | none => (.fresh ctr, ctr + 1)
  | some s => if s = "" then (.fresh ctr, ctr + 1) else (.given s, ctr)

/-- The `SELECT 1 FROM user_data WHERE user_id = %s OR email = %s LIMIT 1`
existence check (seed.py:115-118), as seen by the loading connection. -/
def existsMatch (tbl : List TableRow) (uid : UserId) (email : String) : Bool :=
  tbl.any (fun t => t.user_id = uid ∨ t.email = email)

/-- The `for row in reader` loop of `insert_data` (seed.py:101-126): resolve
the id, skip rows with missing/invalid age, skip rows matching an existing
`user_id` or `email`, insert the rest and count them. State: current table,
uuid-draw counter, inserted-row count. -/
def insertLoop (tbl : List TableRow) (ctr inserted : Nat) :
    List CsvRow → List TableRow × Nat × Nat
  | [] => (tbl, ctr, inserted)
  | r :: rs =>
    let u := resolveUserId r ctr
    match r.age with
    | none => insertLoop tbl u.2 inserted rs
    | some a =>
      if existsMatch tbl u.1 r.email then
        insertLoop tbl u.2 inserted rs
      else
        insertLoop (tbl ++ [⟨u.1, r.name, r.email, a⟩]) u.2 (inserted + 1) rs

/-- `insert_data(connection, csv_path)` (seed.py:86-135) over a table in state
`tbl` and a CSV whose parsed records are `csv`, with `ctr` uuid4 draws already
made: returns the new table, the new draw counter and the number of rows
inserted by this load. -/
def insert_data (tbl : List TableRow) (csv : List CsvRow) (ctr : Nat) :
    List TableRow × Nat × Nat :=
  insertLoop tbl ctr 0 csv

/-- No row of `tbl` carries a fresh uuid that is still to be drawn (draw
counter ≥ `ctr`): uuid4 does not collide with later draws. Holds trivially of
any table whose ids all came from CSVs, and is preserved by `insertLoop`. -/
def FreshFree (tbl : List TableRow) (ctr : Nat) : Prop :=
  ∀ t ∈ tbl, ∀ k, ctr ≤ k → t.user_id ≠ .fresh k

-- scratch checks
/-- The four-row table whose ages are `[28, 34, 22, 30]` (spec §8). -/
def ageRows : List Row :=
  [⟨"a-1", "Aya", "aya@x", 28⟩, ⟨"a-2", "Ben", "ben@x", 34⟩,
   ⟨"a-3", "Cleo", "cleo@x", 22⟩, ⟨"a-4", "Dan", "dan@x", 30⟩]

/-- `Stable tbl r`: processing CSV record `r` against a table extending `tbl`
cannot insert — its age is missing/invalid, or its email is already present,
or its CSV-supplied id is already present. -/
def Stable (tbl : List TableRow) (r : CsvRow) : Prop :=
  r.age = none ∨ (∃ t ∈ tbl, t.email = r.email) ∨
    (∃ s, r.user_id = some s ∧ s ≠ "" ∧ ∃ t ∈ tbl, t.user_id = .given s)

section BatchLemmas

/-- Concatenating everything the batching loop yields restores the buffered
prefix followed by the remaining rows, for any batch size. -/
theorem batchLoop_flatten (b : Int) (rows : List Row) :
    ∀ acc, (batchLoop b acc rows).flatten = acc ++ rows := by
  induction rows with
  | nil =>
    intro acc
    by_cases h : acc.isEmpty
    · rw [List.isEmpty_iff] at h
      simp [batchLoop, h]
    · simp [batchLoop, h]
  | cons r rs ih =>
    intro acc
    simp only [batchLoop]
    split
    · simp [ih]
    · simp [ih]

/-- Number of batches yielded by the loop: the ceiling of (buffered + remaining)
over the batch size, provided the buffer is below the batch size. -/
theorem batchLoop_length (bn : Nat) (hb : 1 ≤ bn) (rows : List Row) :
    ∀ acc : List Row, acc.length < bn →
      (batchLoop (bn : Int) acc rows).length =
        (acc.length + rows.length + bn - 1) / bn := by
  induction rows with
  | nil =>
    intro acc hacc
    by_cases h : acc.isEmpty
    · rw [List.isEmpty_iff] at h
      subst h
      simp [batchLoop, Nat.div_eq_of_lt (show bn - 1 < bn by omega)]
    · have hlen : 1 ≤ acc.length := by
        cases acc with
        | nil => simp at h
        | cons x xs => simp
      have hnum : acc.length + List.length ([] : List Row) + bn - 1 =
          (acc.length - 1) + bn := by
        simp; omega
      rw [hnum, Nat.add_div_right _ (by omega), Nat.div_eq_of_lt (by omega)]
      simp [batchLoop, h]
  | cons r rs ih =>
    intro acc hacc
    simp only [batchLoop]
    split
    · rename_i hfull
      have hlen : acc.length + 1 = bn := by
        have := hfull
        rw [List.length_append, List.length_singleton] at this
        exact_mod_cast this
      have hrec := ih [] (by simp only [List.length_nil]; omega)
      simp only [List.length_cons, hrec]
      have hnum : acc.length + (rs.length + 1) + bn - 1 =
          (List.length ([] : List Row) + rs.length + bn - 1) + bn := by
        simp; omega
      rw [hnum, Nat.add_div_right _ (by omega)]
    · rename_i hfull
      have hlt : (acc ++ [r]).length < bn := by
        rw [List.length_append, List.length_singleton]
        rcases Nat.lt_or_ge (acc.length + 1) bn with h | h
        · exact h
        · exfalso
          apply hfull
          have : acc.length + 1 = bn := by omega
          rw [List.length_append, List.length_singleton, this]
      rw [ih _ hlt]
      congr 1
      rw [List.length_append, List.length_singleton, List.length_cons]
      omega

/-- Every batch the loop yields is non-empty and no longer than the batch
size, provided the buffer is below the batch size. -/
theorem batchLoop_sizes (bn : Nat) (hb : 1 ≤ bn) (rows : List Row) :
    ∀ acc : List Row, acc.length < bn →
      ∀ batch ∈ batchLoop (bn : Int) acc rows,
        1 ≤ batch.length ∧ batch.length ≤ bn := by
  induction rows with
  | nil =>
    intro acc hacc batch hmem
    by_cases h : acc.isEmpty
    · rw [List.isEmpty_iff] at h
      subst h
      simp [batchLoop] at hmem
    · simp only [batchLoop, if_neg h] at hmem
      rw [List.mem_singleton] at hmem
      subst hmem
      constructor
      · cases batch with
        | nil => simp at h
        | cons x xs => simp
      · omega
  | cons r rs ih =>
    intro acc hacc batch hmem
    simp only [batchLoop] at hmem
    split at hmem
    · rename_i hfull
      have hlen : acc.length + 1 = bn := by
        rw [List.length_append, List.length_singleton] at hfull
        exact_mod_cast hfull
      rcases List.mem_cons.mp hmem with h | h
      · subst h
        rw [List.length_append, List.length_singleton]
        omega
      · exact ih [] (by simp only [List.length_nil]; omega) batch h
    · rename_i hfull
      have hlt : (acc ++ [r]).length < bn := by
        rw [List.length_append, List.length_singleton]
        rcases Nat.lt_or_ge (acc.length + 1) bn with h | h
        · exact h
        · exfalso
          apply hfull
          have : acc.length + 1 = bn := by omega
          rw [List.length_append, List.length_singleton, this]
      exact ih _ hlt batch hmem

/-- With a non-positive batch size the flush test `len(batch) == batch_size`
never fires, so the loop accumulates everything and yields it as one final
batch (or nothing when there is nothing at all). -/
theorem batchLoop_nonpos (b : Int) (hb : b ≤ 0) (rows : List Row) :
    ∀ acc, batchLoop b acc rows =
      if (acc ++ rows).isEmpty then [] else [acc ++ rows] := by
  induction rows with
  | nil => intro acc; simp [batchLoop]
  | cons r rs ih =>
    intro acc
    simp only [batchLoop]
    have hne : ((acc ++ [r]).length : Int) ≠ b := by
      rw [List.length_append, List.length_singleton]
      push_cast
      omega
    rw [if_neg hne, ih]
    simp

end BatchLemmas

/-- C1 (code bug in `0-stream_users.py`): on a two-row table, a consumer that
pulls one row and abandons the `stream_users` generator observes no
cursor/connection release at all — the `close()` calls sit after the loop with
no `try/finally`, so closing the suspended generator skips them — whereas
driving it to exhaustion releases each exactly once. The claimed "released
exactly once on every exit path" fails on the early-abandonment path. -/
theorem stream_users_release_on_exhaustion_only :
    (stream_users_run (some [rowA, rowB]) 1).count .cursorClosed = 0 ∧
    (stream_users_run (some [rowA, rowB]) 1).count .connClosed = 0 ∧
    (stream_users_run (some [rowA, rowB]) 3).count .cursorClosed = 1 ∧
    (stream_users_run (some [rowA, rowB]) 3).count .connClosed = 1 := by decide

/-- C2: for every batch size `b ≥ 1` and every row source, concatenating in
order all batches yielded by `stream_users_in_batches(b)` yields exactly the
row sequence of `stream_users()`, and exactly `⌈n/b⌉` batches are yielded
(`0` batches when `n = 0`, as `(0 + b - 1) / b = 0`). -/
theorem stream_users_in_batches_concat_count (b : Int) (rows : List Row)
    (hb : 1 ≤ b) :
    (stream_users_in_batches b (some rows)).flatten = stream_users (some rows) ∧
    (stream_users_in_batches b (some rows)).length =
      (rows.length + b.toNat - 1) / b.toNat := by
  obtain ⟨n, rfl⟩ : ∃ n : Nat, b = (n : Int) :=
    ⟨b.toNat, (Int.toNat_of_nonneg (by omega)).symm⟩
  have hn : 1 ≤ n := by exact_mod_cast hb
  constructor
  · simp [stream_users_in_batches, stream_users, connect_to_prodev,
      mysql_connect, batchLoop_flatten]
  · have h := batchLoop_length n hn rows []
      (by simp only [List.length_nil]; omega)
    simp only [stream_users_in_batches, connect_to_prodev, mysql_connect, h,
      List.length_nil, Int.toNat_natCast]
    congr 1
    omega

/-- Witness for C2 at `b = 2` over a three-row table. -/
theorem stream_users_in_batches_concat_count_witness :
    (1 : Int) ≤ 2 ∧
      ((stream_users_in_batches 2 (some [rowA, rowB, rowC])).flatten =
          stream_users (some [rowA, rowB, rowC]) ∧
        (stream_users_in_batches 2 (some [rowA, rowB, rowC])).length =
          ([rowA, rowB, rowC].length + (2 : Int).toNat - 1) / (2 : Int).toNat) :=
  ⟨by decide, stream_users_in_batches_concat_count 2 [rowA, rowB, rowC] (by decide)⟩

/-- C3 counterexample: with the backing store unreachable, the driver error is
swallowed by `connect_to_prodev` (which returns `None`) and `stream_users`
yields the empty sequence — a normal empty iteration reaches the caller, not a
propagated `ConnectionError`. -/
theorem stream_users_unreachable_counterexample :
    mysql_connect none = .error .connectionError ∧
    connect_to_prodev none = none ∧
    stream_users none = [] := by
  refine ⟨rfl, rfl, rfl⟩

/-- C3 amended: when the backing store is unreachable, the driver raises, but
`connect_to_prodev` catches the error (printing a diagnostic) and returns
`None`; `stream_users` checks the connection and returns at once, so every
consumer of `stream_users()` sees an empty sequence — no error is propagated
and no close events occur (nothing was opened). -/
theorem stream_users_unreachable_silent :
    mysql_connect none = .error .connectionError ∧
    connect_to_prodev none = none ∧
    stream_users none = [] ∧
    ∀ pulls : Nat, stream_users_run none pulls = [] :=
  ⟨rfl, rfl, rfl, fun _ => rfl⟩

/-- C4 counterexample: `stream_users_in_batches` with a non-positive batch
size does not fail at all — it performs the full query and yields every row of
the table as one batch (`batch_size = 0` and `-3` shown), so no
`InvalidArgument` is raised before I/O. -/
theorem stream_users_in_batches_nonpos_counterexample :
    stream_users_in_batches 0 (some [rowA]) = [[rowA]] ∧
    stream_users_in_batches (-3) (some [rowA]) = [[rowA]] := by decide

/-- C4 amended: `stream_users_in_batches` performs no validation of
`batch_size`. For every `batch_size ≤ 0` it runs the full query and the
equality test `len(batch) == batch_size` never fires, so the whole table is
yielded as one final batch (no batch for an empty table) and no error is ever
raised. -/
theorem stream_users_in_batches_nonpos (b : Int) (rows : List Row)
    (hb : b ≤ 0) :
    stream_users_in_batches b (some rows) =
      if rows.isEmpty then [] else [rows] := by
  simp [stream_users_in_batches, connect_to_prodev, mysql_connect,
    batchLoop_nonpos b hb]

/-- Witness for the amended C4 at `batch_size = 0` on a one-row table. -/
theorem stream_users_in_batches_nonpos_witness :
    (0 : Int) ≤ 0 ∧
      stream_users_in_batches 0 (some [rowA]) =
        if [rowA].isEmpty then [] else [[rowA]] :=
  ⟨by decide, stream_users_in_batches_nonpos 0 [rowA] (by decide)⟩

/-- C6: for every predicate and every batch size `b ≥ 1`, the row sequence
emitted by the batch filter equals the rows of `stream_users()` satisfying the
predicate, in source order (hence the multiset is that of the matching rows,
independent of `b`, and intra-batch as well as inter-batch order is
preserved); and
`batch_processing` is exactly this filter with the hard-coded `age > 25`
predicate. -/
theorem filter_rows_eq_filter_stream (pred : Row → Bool) (b : Int)
    (store : Option (List Row)) (_hb : 1 ≤ b) :
    filter_rows pred b store = (stream_users store).filter pred ∧
    batch_processing b store =
      filter_rows (fun u => decide (25 < u.age)) b store := by
  constructor
  · cases store with
    | none =>
      simp [filter_rows, stream_users_in_batches, stream_users,
        connect_to_prodev, mysql_connect]
    | some rows =>
      simp only [filter_rows, stream_users_in_batches, stream_users,
        connect_to_prodev, mysql_connect]
      rw [← List.filter_flatten, batchLoop_flatten]
      simp
  · rfl

/-- Witness for C6 at `b = 2` with the `age > 25` predicate on a three-row
table. -/
theorem filter_rows_eq_filter_stream_witness :
    (1 : Int) ≤ 2 ∧
      (filter_rows (fun u => decide (25 < u.age)) 2 (some [rowA, rowB, rowC]) =
          (stream_users (some [rowA, rowB, rowC])).filter
            (fun u => decide (25 < u.age)) ∧
        batch_processing 2 (some [rowA, rowB, rowC]) =
          filter_rows (fun u => decide (25 < u.age)) 2 (some [rowA, rowB, rowC])) :=
  ⟨by decide,
    filter_rows_eq_filter_stream (fun u => decide (25 < u.age)) 2
      (some [rowA, rowB, rowC]) (by decide)⟩

/-- C8: for every batch size `b ≥ 1`, every batch yielded by
`stream_users_in_batches(b)` has `1 ≤ length` and `length ≤ b`: a final short
batch appears only from leftover rows and an empty batch is never yielded. -/
theorem stream_users_in_batches_batch_sizes (b : Int)
    (store : Option (List Row)) (hb : 1 ≤ b) :
    ∀ batch ∈ stream_users_in_batches b store,
      1 ≤ batch.length ∧ (batch.length : Int) ≤ b := by
  obtain ⟨n, rfl⟩ : ∃ n : Nat, b = (n : Int) :=
    ⟨b.toNat, (Int.toNat_of_nonneg (by omega)).symm⟩
  have hn : 1 ≤ n := by exact_mod_cast hb
  intro batch hmem
  cases store with
  | none => simp [stream_users_in_batches, connect_to_prodev, mysql_connect] at hmem
  | some rows =>
    simp only [stream_users_in_batches, connect_to_prodev, mysql_connect] at hmem
    have h := batchLoop_sizes n hn rows []
      (by simp only [List.length_nil]; omega) batch hmem
    exact ⟨h.1, by exact_mod_cast h.2⟩

/-- Witness for C8 at `b = 2` on a three-row table, at its first batch. -/
theorem stream_users_in_batches_batch_sizes_witness :
    (1 : Int) ≤ 2 ∧
      [rowA, rowB] ∈ stream_users_in_batches 2 (some [rowA, rowB, rowC]) ∧
      (1 ≤ [rowA, rowB].length ∧ (([rowA, rowB].length : Nat) : Int) ≤ 2) :=
  ⟨by decide, by decide,
    stream_users_in_batches_batch_sizes 2 (some [rowA, rowB, rowC]) (by decide)
      [rowA, rowB] (by decide)⟩

/-- Full behaviour of the pagination loop from an arbitrary starting offset
(for a positive page size): the yielded pages concatenate to the rows from
that offset on, the loop makes exactly `⌈(n - offset)/p⌉ + 1` fetch calls
(the last call returning the terminal empty page), and no yielded page is
empty. -/
theorem lazyPaginationAux_spec (p : Nat) (hp : 1 ≤ p) (rows : List Row) :
    ∀ fuel offset, rows.length - offset ≤ fuel →
      (lazyPaginationAux p rows offset).1.flatten = rows.drop offset ∧
      (lazyPaginationAux p rows offset).2 =
        (rows.length - offset + p - 1) / p + 1 ∧
      ∀ page ∈ (lazyPaginationAux p rows offset).1, page ≠ [] := by
  intro fuel
  induction fuel with
  | zero =>
    intro off hoff
    have hdrop : rows.drop off = [] := List.drop_eq_nil_iff.mpr (by omega)
    have hfq : fetch_rows_query p off rows = [] := by
      simp [fetch_rows_query, hdrop]
    rw [lazyPaginationAux]
    simp only [hfq, dif_pos]
    refine ⟨by simp [hdrop], ?_, by simp⟩
    rw [Nat.div_eq_of_lt (by omega)]
  | succ fuel ih =>
    intro off hoff
    rw [lazyPaginationAux]
    by_cases hfq : fetch_rows_query p off rows = []
    · have hdrop : rows.drop off = [] := by
        rcases List.take_eq_nil_iff.mp hfq with h | h
        · omega
        · exact h
      simp only [hfq, dif_pos]
      refine ⟨by simp [hdrop], ?_, by simp⟩
      have hlen : rows.length ≤ off := List.drop_eq_nil_iff.mp hdrop
      rw [Nat.div_eq_of_lt (by omega)]
    · have hlt : off < rows.length := by
        rcases Nat.lt_or_ge off rows.length with h | h
        · exact h
        · exact absurd (by simp [fetch_rows_query,
            List.drop_eq_nil_iff.mpr h]) hfq
      obtain ⟨ih1, ih2, ih3⟩ := ih (off + p) (by omega)
      simp only [hfq, dif_neg, not_false_iff]
      refine ⟨?_, ?_, ?_⟩
      · simp only [List.flatten_cons, ih1, fetch_rows_query]
        rw [show off + p = off + p from rfl, ← List.drop_drop,
          List.take_append_drop]
      · simp only [ih2]
        rcases Nat.lt_or_ge (rows.length - off) p with hc | hc
        · have h1 : rows.length - (off + p) + p - 1 = p - 1 := by omega
          have h2 : rows.length - off + p - 1 =
              (rows.length - off - 1) + p := by omega
          rw [h1, h2, Nat.add_div_right _ (by omega),
            Nat.div_eq_of_lt (by omega), Nat.div_eq_of_lt (by omega)]
        · have h1 : rows.length - (off + p) + p - 1 =
              rows.length - off - 1 := by omega
          have h2 : rows.length - off + p - 1 =
              (rows.length - off - 1) + p := by omega
          rw [h1, h2, Nat.add_div_right _ (by omega)]
      · intro page hmem
        rcases List.mem_cons.mp hmem with h | h
        · subst h; exact hfq
        · exact ih3 page h

/-- C5: for every page size `p ≥ 1` over a static reachable source of `n`
rows, `lazy_pagination(p)` terminates after exactly `⌈n/p⌉ + 1` calls to the
page fetcher (hence at most that many), concatenating all yielded pages in
order reproduces the row order of `stream_users()`, and the terminal empty
page is never yielded. -/
theorem lazy_pagination_spec (p : Nat) (rows : List Row) (hp : 1 ≤ p) :
    (lazy_pagination p rows).flatten = stream_users (some rows) ∧
    lazy_pagination_fetch_calls p rows = (rows.length + p - 1) / p + 1 ∧
    ∀ page ∈ lazy_pagination p rows, page ≠ [] := by
  obtain ⟨h1, h2, h3⟩ :=
    lazyPaginationAux_spec p hp rows rows.length 0 (by omega)
  refine ⟨?_, ?_, h3⟩
  · simpa [lazy_pagination, stream_users, connect_to_prodev, mysql_connect]
      using h1
  · simpa [lazy_pagination_fetch_calls] using h2

/-- Witness for C5 at `p = 2` on a three-row table. -/
theorem lazy_pagination_spec_witness :
    1 ≤ 2 ∧
      ((lazy_pagination 2 [rowA, rowB, rowC]).flatten =
          stream_users (some [rowA, rowB, rowC]) ∧
        lazy_pagination_fetch_calls 2 [rowA, rowB, rowC] =
          ([rowA, rowB, rowC].length + 2 - 1) / 2 + 1) :=
  ⟨by decide,
    ⟨(lazy_pagination_spec 2 [rowA, rowB, rowC] (by decide)).1,
      (lazy_pagination_spec 2 [rowA, rowB, rowC] (by decide)).2.1⟩⟩

/-- C7: the running average over the streamed age column reports `28.5` for
the age sequence `[28, 34, 22, 30]`; on an empty table it reports the
explicit "no data" sentinel (`None`, i.e. the `"No users in database."`
branch) — a total function that neither raises nor returns the numeric
default `0`. -/
theorem calculate_average_age_spec :
    calculate_average_age (some ageRows) = some ((57 : Rat) / 2) ∧
    (57 : Rat) / 2 = (28.5 : Rat) ∧
    calculate_average_age (some []) = none ∧
    calculate_average_age (some []) ≠ some 0 := by
  refine ⟨?_, by norm_num, by decide, by decide⟩
  simp [calculate_average_age, stream_user_ages, connect_to_prodev,
    mysql_connect, ageRows]
  norm_num

section InsertDataLemmas

/-- The existence check in `Prop` form. -/
theorem existsMatch_iff (tbl : List TableRow) (uid : UserId) (email : String) :
    existsMatch tbl uid email = true ↔
      ∃ t ∈ tbl, t.user_id = uid ∨ t.email = email := by
  simp [existsMatch]

/-- `Stable` survives table growth. -/
theorem stable_mono (tbl ex : List TableRow) (r : CsvRow) (h : Stable tbl r) :
    Stable (tbl ++ ex) r := by
  rcases h with h | ⟨t, ht, he⟩ | ⟨s, hs, hne, t, ht, hu⟩
  · exact Or.inl h
  · exact Or.inr (Or.inl ⟨t, List.mem_append_left _ ht, he⟩)
  · exact Or.inr (Or.inr ⟨s, hs, hne, t, List.mem_append_left _ ht, hu⟩)

/-- The loading loop only appends to the table. -/
theorem insertLoop_table_append (csv : List CsvRow) :
    ∀ tbl ctr ins, ∃ ex, (insertLoop tbl ctr ins csv).1 = tbl ++ ex := by
  induction csv with
  | nil => intro tbl ctr ins; exact ⟨[], by simp [insertLoop]⟩
  | cons q qs ih =>
    intro tbl ctr ins
    rcases hra : q.age with _ | a <;> simp only [insertLoop, hra]
    · exact ih tbl (resolveUserId q ctr).2 ins
    · by_cases hm : existsMatch tbl (resolveUserId q ctr).1 q.email
      · rw [if_pos hm]
        exact ih tbl (resolveUserId q ctr).2 ins
      · rw [if_neg hm]
        obtain ⟨ex, hex⟩ := ih
          (tbl ++ [⟨(resolveUserId q ctr).1, q.name, q.email, a⟩])
          (resolveUserId q ctr).2 (ins + 1)
        exact ⟨[⟨(resolveUserId q ctr).1, q.name, q.email, a⟩] ++ ex, by
          rw [hex, List.append_assoc]⟩

/-- The table grows by exactly the number of inserted rows. -/
theorem insertLoop_length (csv : List CsvRow) :
    ∀ tbl ctr ins, (insertLoop tbl ctr ins csv).1.length + ins =
      tbl.length + (insertLoop tbl ctr ins csv).2.2 := by
  induction csv with
  | nil => intro tbl ctr ins; simp [insertLoop]
  | cons q qs ih =>
    intro tbl ctr ins
    rcases hra : q.age with _ | a <;> simp only [insertLoop, hra]
    · exact ih tbl (resolveUserId q ctr).2 ins
    · by_cases hm : existsMatch tbl (resolveUserId q ctr).1 q.email
      · rw [if_pos hm]
        exact ih tbl (resolveUserId q ctr).2 ins
      · rw [if_neg hm]
        have h := ih (tbl ++ [⟨(resolveUserId q ctr).1, q.name, q.email, a⟩])
          (resolveUserId q ctr).2 (ins + 1)
        rw [List.length_append, List.length_singleton] at h
        omega

/-- `FreshFree` is antitone in the draw counter. -/
theorem freshFree_mono (tbl : List TableRow) (ctr ctr' : Nat)
    (hle : ctr ≤ ctr') (h : FreshFree tbl ctr) : FreshFree tbl ctr' :=
  fun t ht k hk => h t ht k (by omega)

/-- The counter never decreases across one record. -/
theorem resolveUserId_ctr_le (r : CsvRow) (ctr : Nat) :
    ctr ≤ (resolveUserId r ctr).2 := by
  rcases hq : r.user_id with _ | s
  · simp [resolveUserId, hq]
  · by_cases hs : s = "" <;> simp [resolveUserId, hq, hs]

/-- Appending a freshly resolved row preserves collision-freeness of future
uuid draws. -/
theorem freshFree_step (r : CsvRow) (ctr : Nat) (tbl : List TableRow)
    (nm em : String) (a : Int) (h : FreshFree tbl ctr) :
    FreshFree (tbl ++ [⟨(resolveUserId r ctr).1, nm, em, a⟩])
      (resolveUserId r ctr).2 := by
  intro t ht k hk
  rcases List.mem_append.mp ht with ht | ht
  · exact h t ht k (by have := resolveUserId_ctr_le r ctr; omega)
  · rw [List.mem_singleton] at ht
    subst ht
    rcases hq : r.user_id with _ | s
    · simp only [resolveUserId, hq] at hk ⊢
      intro hfe
      rw [UserId.fresh.injEq] at hfe
      omega
    · by_cases hs : s = ""
      · simp only [resolveUserId, hq, if_pos hs] at hk ⊢
        intro hfe
        rw [UserId.fresh.injEq] at hfe
        omega
      · simp only [resolveUserId, hq, if_neg hs] at hk ⊢
        intro hfe
        exact UserId.noConfusion hfe

/-- Coverage: after a load, every record of the CSV is `Stable` against the
resulting table — whatever made the loop skip it (or the row it inserted into
the table) persists. Needs `FreshFree`: a freshly drawn uuid can never be
what matched an existing row. -/
theorem insertLoop_stable (csv : List CsvRow) :
    ∀ tbl ctr ins, FreshFree tbl ctr →
      ∀ r ∈ csv, Stable (insertLoop tbl ctr ins csv).1 r := by
  induction csv with
  | nil => intro tbl ctr ins _ r hr; simp at hr
  | cons q qs ih =>
    intro tbl ctr ins hff r hr
    rcases hra : q.age with _ | a <;> simp only [insertLoop, hra]
    · rcases List.mem_cons.mp hr with hreq | hr
      · obtain ⟨ex, hex⟩ :=
          insertLoop_table_append qs tbl (resolveUserId q ctr).2 ins
        rw [hex, hreq]
        exact stable_mono tbl ex q (Or.inl hra)
      · exact ih tbl (resolveUserId q ctr).2 ins
          (freshFree_mono tbl ctr _ (resolveUserId_ctr_le q ctr) hff) r hr
    · by_cases hm : existsMatch tbl (resolveUserId q ctr).1 q.email
      · rw [if_pos hm]
        rcases List.mem_cons.mp hr with hreq | hr
        · have hstab : Stable tbl q := by
            obtain ⟨t, ht, hcase⟩ := (existsMatch_iff tbl _ _).mp hm
            rcases hcase with hu | he
            · rcases hq : q.user_id with _ | s
              · exfalso
                simp only [resolveUserId, hq] at hu
                exact hff t ht ctr (le_refl ctr) hu
              · by_cases hs : s = ""
                · exfalso
                  simp only [resolveUserId, hq, if_pos hs] at hu
                  exact hff t ht ctr (le_refl ctr) hu
                · simp only [resolveUserId, hq, if_neg hs] at hu
                  exact Or.inr (Or.inr ⟨s, hq, hs, t, ht, hu⟩)
            · exact Or.inr (Or.inl ⟨t, ht, he⟩)
          obtain ⟨ex, hex⟩ :=
            insertLoop_table_append qs tbl (resolveUserId q ctr).2 ins
          rw [hex, hreq]
          exact stable_mono tbl ex q hstab
        · exact ih tbl (resolveUserId q ctr).2 ins
            (freshFree_mono tbl ctr _ (resolveUserId_ctr_le q ctr) hff) r hr
      · rw [if_neg hm]
        rcases List.mem_cons.mp hr with hreq | hr
        · obtain ⟨ex, hex⟩ := insertLoop_table_append qs
            (tbl ++ [⟨(resolveUserId q ctr).1, q.name, q.email, a⟩])
            (resolveUserId q ctr).2 (ins + 1)
          rw [hex, hreq]
          have hstab : Stable
              (tbl ++ [⟨(resolveUserId q ctr).1, q.name, q.email, a⟩]) q :=
            Or.inr (Or.inl ⟨⟨(resolveUserId q ctr).1, q.name, q.email, a⟩,
              List.mem_append_right _ (List.mem_singleton.mpr rfl), rfl⟩)
          exact stable_mono _ ex q hstab
        · exact ih (tbl ++ [⟨(resolveUserId q ctr).1, q.name, q.email, a⟩])
            (resolveUserId q ctr).2 (ins + 1)
            (freshFree_step q ctr tbl q.name q.email a hff) r hr

/-- A load whose every record is already `Stable` against the table inserts
nothing and leaves the table unchanged. -/
theorem insertLoop_skips (csv : List CsvRow) :
    ∀ tbl ctr ins, (∀ r ∈ csv, Stable tbl r) →
      (insertLoop tbl ctr ins csv).1 = tbl ∧
      (insertLoop tbl ctr ins csv).2.2 = ins := by
  induction csv with
  | nil => intro tbl ctr ins _; simp [insertLoop]
  | cons q qs ih =>
    intro tbl ctr ins hstab
    rcases hra : q.age with _ | a <;> simp only [insertLoop, hra]
    · exact ih tbl (resolveUserId q ctr).2 ins
        (fun r hr => hstab r (List.mem_cons_of_mem q hr))
    · have hm : existsMatch tbl (resolveUserId q ctr).1 q.email = true := by
        rcases hstab q (List.mem_cons_self q qs) with h | ⟨t, ht, he⟩ |
          ⟨s, hs, hne, t, ht, hu⟩
        · rw [hra] at h
          exact absurd h (by simp)
        · exact (existsMatch_iff tbl _ _).mpr ⟨t, ht, Or.inr he⟩
        · simp only [resolveUserId, hs]
          rw [if_neg hne]
          exact (existsMatch_iff tbl _ _).mpr ⟨t, ht, Or.inl hu⟩
      rw [if_pos hm]
      exact ih tbl (resolveUserId q ctr).2 ins
        (fun r hr => hstab r (List.mem_cons_of_mem q hr))

end InsertDataLemmas

/-- C9: loading the same CSV twice via `insert_data` is idempotent: the second
load inserts 0 rows and leaves the table exactly as the first load left it
(rows whose `user_id` or `email` already exists are skipped, not duplicated),
and the first load grew the table by exactly its inserted-row count (each
valid new row inserted exactly once). Hypothesis: no row of the starting
table carries a uuid that a future `uuid4()` draw could reproduce. -/
theorem insert_data_idempotent (tbl0 : List TableRow) (csv : List CsvRow)
    (ctr0 : Nat) (hff : FreshFree tbl0 ctr0) :
    (insert_data (insert_data tbl0 csv ctr0).1 csv
        (insert_data tbl0 csv ctr0).2.1).2.2 = 0 ∧
    (insert_data (insert_data tbl0 csv ctr0).1 csv
        (insert_data tbl0 csv ctr0).2.1).1 = (insert_data tbl0 csv ctr0).1 ∧
    (insert_data tbl0 csv ctr0).1.length =
      tbl0.length + (insert_data tbl0 csv ctr0).2.2 := by
  have hcov : ∀ r ∈ csv, Stable (insert_data tbl0 csv ctr0).1 r :=
    insertLoop_stable csv tbl0 ctr0 0 hff
  have hskip := insertLoop_skips csv (insert_data tbl0 csv ctr0).1
    (insert_data tbl0 csv ctr0).2.1 0 hcov
  have hlen := insertLoop_length csv tbl0 ctr0 0
  exact ⟨hskip.2, hskip.1, by simpa [insert_data] using hlen⟩

/-- Witness for C9: an empty table, draw counter 0 (trivially `FreshFree`)
and a four-record CSV exercising a given id, a generated id, an intra-file
duplicate and an invalid age. -/
theorem insert_data_idempotent_witness :
    FreshFree [] 0 ∧
      ((insert_data (insert_data []
            [⟨some "u1", "A", "a@x", some 30⟩, ⟨none, "B", "b@x", some 22⟩,
             ⟨some "u1", "A", "a@x", some 30⟩, ⟨none, "C", "c@x", none⟩] 0).1
          [⟨some "u1", "A", "a@x", some 30⟩, ⟨none, "B", "b@x", some 22⟩,
           ⟨some "u1", "A", "a@x", some 30⟩, ⟨none, "C", "c@x", none⟩]
          (insert_data []
            [⟨some "u1", "A", "a@x", some 30⟩, ⟨none, "B", "b@x", some 22⟩,
             ⟨some "u1", "A", "a@x", some 30⟩, ⟨none, "C", "c@x", none⟩] 0).2.1).2.2 = 0 ∧
        (insert_data (insert_data []
            [⟨some "u1", "A", "a@x", some 30⟩, ⟨none, "B", "b@x", some 22⟩,
             ⟨some "u1", "A", "a@x", some 30⟩, ⟨none, "C", "c@x", none⟩] 0).1
          [⟨some "u1", "A", "a@x", some 30⟩, ⟨none, "B", "b@x", some 22⟩,
           ⟨some "u1", "A", "a@x", some 30⟩, ⟨none, "C", "c@x", none⟩]
          (insert_data []
            [⟨some "u1", "A", "a@x", some 30⟩, ⟨none, "B", "b@x", some 22⟩,
             ⟨some "u1", "A", "a@x", some 30⟩, ⟨none, "C", "c@x", none⟩] 0).2.1).1 =
          (insert_data []
            [⟨some "u1", "A", "a@x", some 30⟩, ⟨none, "B", "b@x", some 22⟩,
             ⟨some "u1", "A", "a@x", some 30⟩, ⟨none, "C", "c@x", none⟩] 0).1 ∧
        (insert_data []
            [⟨some "u1", "A", "a@x", some 30⟩, ⟨none, "B", "b@x", some 22⟩,
             ⟨some "u1", "A", "a@x", some 30⟩, ⟨none, "C", "c@x", none⟩] 0).1.length =
          List.length ([] : List TableRow) +
            (insert_data []
              [⟨some "u1", "A", "a@x", some 30⟩, ⟨none, "B", "b@x", some 22⟩,
               ⟨some "u1", "A", "a@x", some 30⟩, ⟨none, "C", "c@x", none⟩] 0).2.2) :=
  ⟨by simp [FreshFree],
    insert_data_idempotent []
      [⟨some "u1", "A", "a@x", some 30⟩, ⟨none, "B", "b@x", some 22⟩,
       ⟨some "u1", "A", "a@x", some 30⟩, ⟨none, "C", "c@x", none⟩] 0
      (by simp [FreshFree])⟩

/-- C10: `paginate_users` has no guard on the connection: when
`connect_to_prodev` returns `None` (store unreachable), the attribute access
`connection.cursor` raises `AttributeError` — neither a page nor a
`ConnectionError` is returned — while `stream_users` on the same failed
connection checks it and returns silently with no yields. -/
theorem paginate_users_none_connection (page_size offset : Nat) :
    paginate_users page_size offset none = .error .attributeError ∧
    Except.error .attributeError ≠
      (Except.error .connectionError : Except PyError (List Row)) ∧
    stream_users none = [] :=
  ⟨rfl, by simp, rfl⟩
